import Mathlib

/-!
Virtual Foo device (hw/misc/virt_foo.c)

A shallow embedding of the register file of the "virt-foo" memory-mapped
device and of its two bus callbacks, `virt_foo_read` and `virt_foo_write`,
followed by the properties of the register decode and of the
command/interrupt state machine.

Machine integers are natural numbers; a `uint32_t` field holds a value
below `2 ^ 32` in every well-formed state, and a store into such a field
reduces the stored value modulo `2 ^ 32`.
-/

set_option linter.unusedVariables false

namespace VirtFoo

/-! ## Constants -/

/-- Modelled from the spec: the macro `BIT` of qemu/bitops.h, which is not part
of hw/misc/virt_foo.c: the word whose only set bit is bit `nr`. -/
def BIT (nr : Nat) : Nat := 1 <<< nr

def REG_ID : Nat := 0x0
def CHIP_ID : Nat := 0xf001
def REG_INIT : Nat := 0x4
def CHIP_EN : Nat := BIT 0
def REG_CMD : Nat := 0x8
def REG_INT_STATUS : Nat := 0xc
def INT_ENABLED : Nat := BIT 0
def INT_BUFFER_ENQ : Nat := BIT 1

/-! ## Device state -/

/-- The fields of `VirtFooState` that the callbacks touch. `irq` is the level
of the output line that the field `qemu_irq irq` is wired to; `id`, `init`,
`cmd` and `status` are the four `uint32_t` registers. The parent object and
the memory region carry no register state. -/
structure VirtFooState where
  irq : Bool
  id : Nat
  init : Nat
  cmd : Nat
  status : Nat
deriving DecidableEq, Repr

/-- Every register holds a 32-bit value. -/
def VirtFooState.wf (s : VirtFooState) : Prop :=
  s.id < 2 ^ 32 ∧ s.init < 2 ^ 32 ∧ s.cmd < 2 ^ 32 ∧ s.status < 2 ^ 32

instance (s : VirtFooState) : Decidable s.wf := by
  unfold VirtFooState.wf; infer_instance

/-! ## Integer conversions of C -/

/-- The cast `(int) value` of a `uint64_t`: the low 32 bits, read as a two's
complement number. -/
def cast_int (value : Nat) : Int :=
  if value % 2 ^ 32 < 2 ^ 31 then ((value % 2 ^ 32 : Nat) : Int)
  else ((value % 2 ^ 32 : Nat) : Int) - 2 ^ 32

/-- The conversion of an `int` to `uint32_t` when it is assigned to a
register: reduction modulo `2 ^ 32`. -/
def to_uint32 (i : Int) : Nat := (i % 2 ^ 32).toNat

/-! ## Interrupt line -/

/-- Modelled from the spec: `qemu_set_irq` of hw/core/irq.c, which is not part
of hw/misc/virt_foo.c: it drives the output line to `level`; the line is
asserted for a non-zero level and deasserted for level 0. -/
def qemu_set_irq (s : VirtFooState) (level : Int) : VirtFooState :=
  { s with irq := decide (level ≠ 0) }

/-! ## Bus callbacks -/

/-- What one call of `virt_foo_read` yields: the `uint64_t` it returns, the
device state it leaves, and the lines it printed on stderr. -/
structure ReadResult where
  ret : Nat
  state : VirtFooState
  stderr : List String
deriving DecidableEq, Repr

/-- The callback `virt_foo_read (opaque, offset, size)`. -/
def virt_foo_read (s : VirtFooState) (offset : Nat) (size : Nat) : ReadResult :=
  let is_enabled : Bool := (s.init &&& CHIP_EN) != 0
  if !is_enabled then
    { ret := 0, state := s, stderr := ["Device is disabled\n"] }
  else if offset = REG_ID then
    { ret := s.id, state := s, stderr := [] }
  else if offset = REG_INIT then
    { ret := s.init, state := s, stderr := [] }
  else if offset = REG_CMD then
    { ret := s.cmd, state := s, stderr := [] }
  else if offset = REG_INT_STATUS then
    let s1 := qemu_set_irq s 0
    { ret := s1.status, state := s1, stderr := [] }
  else
    { ret := 0, state := s, stderr := [] }

/-- The callback `virt_foo_write (opaque, offset, value, size)`. -/
def virt_foo_write (s : VirtFooState) (offset : Nat) (value : Nat) (size : Nat) :
    VirtFooState :=
  if offset = REG_INIT then
    { s with init := to_uint32 (cast_int value) }
  else if offset = REG_CMD then
    let s1 := { s with cmd := to_uint32 (cast_int value) }
    let s2 := { s1 with status := INT_BUFFER_ENQ % 2 ^ 32 }
    qemu_set_irq s2 1
  else
    s

/-- The register part of `virt_foo_realize`: the two assignments it makes to the
instance `s` it is handed. Setting up the memory region and registering the
output line leave the registers and the line level as they are. -/
def virt_foo_realize (s : VirtFooState) : VirtFooState :=
  { s with id := CHIP_ID, init := 0 }

/-- Modelled from the spec: the instance handed to `virt_foo_realize` by the
object framework, which is not part of hw/misc/virt_foo.c: all fields are
zero and the line is deasserted. -/
def instance_zeroed : VirtFooState :=
  { irq := false, id := 0, init := 0, cmd := 0, status := 0 }

/-! ## Sequences of bus accesses -/

/-- One access that the bus routes to the device through `virt_foo_ops`. -/
inductive Access where
  | read (offset size : Nat)
  | write (offset value size : Nat)
deriving DecidableEq, Repr

/-- The state after one access. -/
def step (s : VirtFooState) : Access → VirtFooState
  | .read offset size => (virt_foo_read s offset size).state
  | .write offset value size => virt_foo_write s offset value size

/-- The state after a sequence of accesses, first to last. -/
def run (s : VirtFooState) (ops : List Access) : VirtFooState :=
  ops.foldl step s

/-- What the device lets the outside see over a sequence of accesses: for
each read, in order, the value returned and the lines printed. -/
def outputs (s : VirtFooState) : List Access → List (Nat × List String)
  | [] => []
  | .read offset size :: rest =>
      ((virt_foo_read s offset size).ret, (virt_foo_read s offset size).stderr) ::
        outputs (virt_foo_read s offset size).state rest
  | .write offset value size :: rest =>
      outputs (virt_foo_write s offset value size) rest

/-- The access is a write to the command register. -/
def is_cmd_write : Access → Bool
  | .write offset _ _ => decide (offset = REG_CMD)
  | .read _ _ => false

/-- The access is a read of the interrupt status register. -/
def is_status_read : Access → Bool
  | .read offset _ => decide (offset = REG_INT_STATUS)
  | .write _ _ _ => false

/-- The device built from the zero-filled instance. -/
def constructed : VirtFooState := virt_foo_realize instance_zeroed

/-- The constructed device after `write (0x4, 1)`: enabled, nothing pending. -/
def enabled_idle : VirtFooState := virt_foo_write constructed 0x4 1 4

/-- The constructed device after `write (0x8, 0x55)` with the enable bit still
clear: the interrupt is asserted and the device is disabled. -/
def disabled_pending : VirtFooState := virt_foo_write constructed 0x8 0x55 4

/-! ## Basic facts -/

theorem chip_en_eq : CHIP_EN = 1 := by decide

theorem int_buffer_enq_eq : INT_BUFFER_ENQ = 2 := by decide

theorem land_chip_en (n : Nat) : n &&& CHIP_EN = n % 2 := by
  rw [chip_en_eq, Nat.and_one_is_mod]

theorem to_uint32_cast_int (value : Nat) : to_uint32 (cast_int value) = value % 2 ^ 32 := by
  unfold to_uint32 cast_int
  split <;> omega

theorem run_nil (s : VirtFooState) : run s [] = s := rfl

theorem run_cons (s : VirtFooState) (op : Access) (ops : List Access) :
    run s (op :: ops) = run (step s op) ops := rfl

theorem run_append (s : VirtFooState) (ops1 ops2 : List Access) :
    run s (ops1 ++ ops2) = run (run s ops1) ops2 := by
  simp [run, List.foldl_append]

/-- A property that every access preserves holds after every sequence. -/
theorem run_preserves (P : VirtFooState → Prop)
    (hstep : ∀ s op, P s → P (step s op)) (s : VirtFooState) (ops : List Access)
    (h0 : P s) : P (run s ops) := by
  induction ops generalizing s with
  | nil => exact h0
  | cons op ops ih => exact ih (step s op) (hstep s op h0)

theorem read_state_id (s : VirtFooState) (offset size : Nat) :
    (virt_foo_read s offset size).state.id = s.id := by
  unfold virt_foo_read qemu_set_irq
  dsimp only
  split_ifs <;> rfl

theorem write_id (s : VirtFooState) (offset value size : Nat) :
    (virt_foo_write s offset value size).id = s.id := by
  unfold virt_foo_write qemu_set_irq
  dsimp only
  split_ifs <;> rfl

theorem step_id (s : VirtFooState) (op : Access) : (step s op).id = s.id := by
  cases op with
  | read offset size => exact read_state_id s offset size
  | write offset value size => exact write_id s offset value size

theorem run_id (s : VirtFooState) (ops : List Access) : (run s ops).id = s.id :=
  run_preserves (fun t => t.id = s.id) (fun t op h => (step_id t op).trans h) s ops rfl

/-- The pairs of status value and interrupt level of the command/interrupt
state machine: idle, pending, and pending with the interrupt cleared. -/
theorem step_status_irq (s : VirtFooState) (op : Access)
    (h : (s.status = 0 ∧ s.irq = false) ∨ (s.status = 2 ∧ s.irq = true) ∨
      (s.status = 2 ∧ s.irq = false)) :
    ((step s op).status = 0 ∧ (step s op).irq = false) ∨
      ((step s op).status = 2 ∧ (step s op).irq = true) ∨
      ((step s op).status = 2 ∧ (step s op).irq = false) := by
  cases op with
  | read offset size =>
    simp only [step, virt_foo_read, qemu_set_irq]
    split_ifs
    · exact h
    · exact h
    · exact h
    · exact h
    · rcases h with ⟨h1, _⟩ | ⟨h1, _⟩ | ⟨h1, _⟩ <;> simp [h1]
    · exact h
  | write offset value size =>
    simp only [step, virt_foo_write, qemu_set_irq, int_buffer_enq_eq]
    split_ifs
    · exact h
    · simp
    · exact h

/-! ## Read path -/

/-- C1. Gate property: in a state whose enable register has bit 0 clear,
whatever the other bits and fields are, `virt_foo_read` returns 0 for every
offset and every access size. -/
theorem read_disabled_returns_zero (s : VirtFooState) (offset size : Nat)
    (hdis : s.init % 2 = 0) : (virt_foo_read s offset size).ret = 0 := by
  simp [virt_foo_read, land_chip_en, hdis]

/-- Witness of C1: a disabled state with the reserved enable bits set, a stored
command, a pending status and the interrupt asserted reads 0 at the command
register. -/
theorem read_disabled_returns_zero_witness :
    (0xfffffffe : Nat) % 2 = 0 ∧
      (virt_foo_read { irq := true, id := 0xf001, init := 0xfffffffe, cmd := 0x55, status := 2 }
        0x8 4).ret = 0 :=
  ⟨by decide,
    read_disabled_returns_zero
      { irq := true, id := 0xf001, init := 0xfffffffe, cmd := 0x55, status := 2 } 0x8 4
      (by decide)⟩

/-- C2. Identity property: after `virt_foo_realize` on any instance `s0` and any
finite sequence of reads and writes, the field `id` is `0xF001`, and when
bit 0 of the enable register is set in the resulting state, a read of offset
`0x0` returns `0xF001`. -/
theorem id_fixed_after_any_accesses (s0 : VirtFooState) (ops : List Access) :
    (run (virt_foo_realize s0) ops).id = 0xF001 ∧
      ((run (virt_foo_realize s0) ops).init % 2 = 1 →
        ∀ size, (virt_foo_read (run (virt_foo_realize s0) ops) 0x0 size).ret = 0xF001) := by
  have hid : (run (virt_foo_realize s0) ops).id = 0xF001 := by
    rw [run_id]; rfl
  refine ⟨hid, fun hen size => ?_⟩
  simp [virt_foo_read, land_chip_en, hen, REG_ID, hid]

/-- Witness of C2: the constructed device is enabled, written at every
register offset and at an unknown one, and read at the status register; the
identifier is still `0xF001` and is what offset `0x0` reads. -/
theorem id_fixed_after_any_accesses_witness :
    (run (virt_foo_realize instance_zeroed)
        [.write 0x4 1 4, .write 0x0 0xdead 4, .write 0x8 0x55 4, .write 0xc 7 4,
          .read 0xc 4, .write 0x10 9 4]).init % 2 = 1 ∧
      (run (virt_foo_realize instance_zeroed)
        [.write 0x4 1 4, .write 0x0 0xdead 4, .write 0x8 0x55 4, .write 0xc 7 4,
          .read 0xc 4, .write 0x10 9 4]).id = 0xF001 ∧
      (virt_foo_read (run (virt_foo_realize instance_zeroed)
        [.write 0x4 1 4, .write 0x0 0xdead 4, .write 0x8 0x55 4, .write 0xc 7 4,
          .read 0xc 4, .write 0x10 9 4]) 0x0 4).ret = 0xF001 :=
  ⟨by decide,
    (id_fixed_after_any_accesses instance_zeroed _).1,
    (id_fixed_after_any_accesses instance_zeroed _).2 (by decide) 4⟩

/-- C3. Command echo: in a state whose enable bit 0 is set, for every 32-bit
value `X`, a write of `X` at offset `0x8` followed by a read of offset `0x8`
returns exactly `X`. -/
theorem cmd_write_then_read_echo (s : VirtFooState) (X size1 size2 : Nat)
    (hen : s.init % 2 = 1) (hX : X < 2 ^ 32) :
    (virt_foo_read (virt_foo_write s 0x8 X size1) 0x8 size2).ret = X := by
  simpa [virt_foo_read, virt_foo_write, qemu_set_irq, land_chip_en, hen, REG_ID, REG_INIT,
    REG_CMD, to_uint32_cast_int] using hX

/-- Witness of C3: on the enabled device, `0x55` is echoed, and then `0x99`. -/
theorem cmd_write_then_read_echo_witness :
    enabled_idle.init % 2 = 1 ∧
      (virt_foo_read (virt_foo_write enabled_idle 0x8 0x55 4) 0x8 4).ret = 0x55 ∧
      (virt_foo_read (virt_foo_write (virt_foo_write enabled_idle 0x8 0x55 4) 0x8 0x99 4)
        0x8 4).ret = 0x99 :=
  ⟨by decide,
    cmd_write_then_read_echo enabled_idle 0x55 4 4 (by decide) (by decide),
    cmd_write_then_read_echo (virt_foo_write enabled_idle 0x8 0x55 4) 0x99 4 4
      (by decide) (by decide)⟩

/-! ## Command and interrupt -/

/-- C4. Interrupt assert: for every state and every value `X`, after a write of
`X` at offset `0x8` the interrupt line is asserted and the status register
equals the enqueued pattern `0b10`; when enable bit 0 is set, the next read
of offset `0xC` returns `0b10`. -/
theorem cmd_write_asserts_interrupt (s : VirtFooState) (X size : Nat) :
    (virt_foo_write s 0x8 X size).irq = true ∧
      (virt_foo_write s 0x8 X size).status = 0b10 ∧
      ((virt_foo_write s 0x8 X size).init % 2 = 1 →
        ∀ size2, (virt_foo_read (virt_foo_write s 0x8 X size) 0xC size2).ret = 0b10) := by
  refine ⟨?_, ?_, fun hen size2 => ?_⟩
  · simp [virt_foo_write, qemu_set_irq, REG_INIT, REG_CMD]
  · simp [virt_foo_write, qemu_set_irq, REG_INIT, REG_CMD, int_buffer_enq_eq]
  · have hinit : s.init % 2 = 1 := by
      simpa [virt_foo_write, qemu_set_irq, REG_INIT, REG_CMD] using hen
    simp [virt_foo_read, virt_foo_write, qemu_set_irq, land_chip_en, hinit, REG_ID, REG_INIT,
      REG_CMD, REG_INT_STATUS, int_buffer_enq_eq]

/-- Witness of C4: on the enabled device a write of `0x55` at offset `0x8`
asserts the interrupt, sets the status to `0b10`, and offset `0xC` then
reads `0b10`. -/
theorem cmd_write_asserts_interrupt_witness :
    (virt_foo_write enabled_idle 0x8 0x55 4).init % 2 = 1 ∧
      (virt_foo_write enabled_idle 0x8 0x55 4).irq = true ∧
      (virt_foo_write enabled_idle 0x8 0x55 4).status = 0b10 ∧
      (virt_foo_read (virt_foo_write enabled_idle 0x8 0x55 4) 0xC 4).ret = 0b10 :=
  ⟨by decide,
    (cmd_write_asserts_interrupt enabled_idle 0x55 4).1,
    (cmd_write_asserts_interrupt enabled_idle 0x55 4).2.1,
    (cmd_write_asserts_interrupt enabled_idle 0x55 4).2.2 (by decide) 4⟩

/-- C5. Interrupt clear idempotence: in every enabled state a read of offset
`0xC` returns the current status value and leaves the interrupt deasserted;
a second consecutive read of offset `0xC` returns the same value and leaves
the state identical to the state after the first read. -/
theorem status_read_idempotent (s : VirtFooState) (size1 size2 : Nat)
    (hen : s.init % 2 = 1) :
    (virt_foo_read s 0xC size1).ret = s.status ∧
      (virt_foo_read s 0xC size1).state.irq = false ∧
      (virt_foo_read (virt_foo_read s 0xC size1).state 0xC size2).ret =
        (virt_foo_read s 0xC size1).ret ∧
      (virt_foo_read (virt_foo_read s 0xC size1).state 0xC size2).state =
        (virt_foo_read s 0xC size1).state := by
  simp [virt_foo_read, qemu_set_irq, land_chip_en, hen, REG_ID, REG_INIT, REG_CMD,
    REG_INT_STATUS]

/-- Witness of C5: on the enabled device after `write (0x8, 0x55)`, two
consecutive reads of offset `0xC` both return `0b10` and the interrupt is
deasserted after each. -/
theorem status_read_idempotent_witness :
    (virt_foo_write enabled_idle 0x8 0x55 4).init % 2 = 1 ∧
      (virt_foo_read (virt_foo_write enabled_idle 0x8 0x55 4) 0xC 4).ret = 0b10 ∧
      (virt_foo_read (virt_foo_write enabled_idle 0x8 0x55 4) 0xC 4).state.irq = false ∧
      (virt_foo_read (virt_foo_read (virt_foo_write enabled_idle 0x8 0x55 4) 0xC 4).state
        0xC 4).ret = 0b10 ∧
      (virt_foo_read (virt_foo_read (virt_foo_write enabled_idle 0x8 0x55 4) 0xC 4).state
        0xC 4).state.irq = false :=
  have h := status_read_idempotent (virt_foo_write enabled_idle 0x8 0x55 4) 4 4 (by decide)
  ⟨by decide, h.1.trans (by decide), h.2.1, h.2.2.1.trans (h.1.trans (by decide)),
    (congrArg VirtFooState.irq h.2.2.2).trans h.2.1⟩

/-- C6, as stated, fails. On the constructed device `write (0x8, 0x55)` asserts
the interrupt while the enable bit is clear; the read of offset `0xC` that
follows takes the disabled return before it reaches the line, so the
interrupt is still asserted after a status read, and the stated equivalence
does not hold for this state and access. -/
theorem irq_triggers_as_stated_fail :
    (virt_foo_read disabled_pending 0xC 4).state.irq = true ∧
      ¬ ((step disabled_pending (.read 0xC 4)).irq = true ↔
        (is_cmd_write (.read 0xC 4) = true ∨
          (disabled_pending.irq = true ∧ is_status_read (.read 0xC 4) = false))) := by
  decide

/-- C6, amended. For every state and every single access, the interrupt is
asserted afterwards if and only if the access is a write at offset `0x8`, or
the interrupt was asserted before and the access is not a read of offset
`0xC` made while enable bit 0 is set. In particular every read of offset
`0xC` made while enable bit 0 is set leaves the interrupt deasserted. -/
theorem irq_driven_by_two_triggers (s : VirtFooState) (op : Access) :
    ((step s op).irq = true ↔
        (is_cmd_write op = true ∨
          (s.irq = true ∧ ¬ (is_status_read op = true ∧ s.init % 2 = 1)))) ∧
      (is_status_read op = true ∧ s.init % 2 = 1 → (step s op).irq = false) := by
  cases op with
  | read offset size =>
    rcases Nat.mod_two_eq_zero_or_one s.init with h | h
    · simp [step, is_cmd_write, is_status_read, virt_foo_read, land_chip_en, h]
    · by_cases h0 : offset = REG_ID
      · simp [step, is_cmd_write, is_status_read, virt_foo_read, land_chip_en, h, h0,
          REG_ID, REG_INT_STATUS]
      · by_cases h4 : offset = REG_INIT
        · simp [step, is_cmd_write, is_status_read, virt_foo_read, land_chip_en, h, h4,
            REG_ID, REG_INIT, REG_INT_STATUS]
        · by_cases h8 : offset = REG_CMD
          · simp [step, is_cmd_write, is_status_read, virt_foo_read, land_chip_en, h, h8,
              REG_ID, REG_INIT, REG_CMD, REG_INT_STATUS]
          · by_cases hc : offset = REG_INT_STATUS
            · simp [step, is_cmd_write, is_status_read, virt_foo_read, qemu_set_irq,
                land_chip_en, h, hc, REG_ID, REG_INIT, REG_CMD, REG_INT_STATUS]
            · simp [step, is_cmd_write, is_status_read, virt_foo_read, land_chip_en, h,
                h0, h4, h8, hc]
  | write offset value size =>
    by_cases h4 : offset = REG_INIT
    · simp [step, is_cmd_write, is_status_read, virt_foo_write, h4, REG_INIT, REG_CMD]
    · by_cases h8 : offset = REG_CMD
      · simp [step, is_cmd_write, is_status_read, virt_foo_write, qemu_set_irq, h8,
          REG_INIT, REG_CMD]
      · simp [step, is_cmd_write, is_status_read, virt_foo_write, h4, h8]

/-- Witness of C6, amended: on the enabled device with a pending interrupt, a
read of offset `0xC` deasserts the line. -/
theorem irq_driven_by_two_triggers_witness :
    (is_status_read (.read 0xC 4) = true ∧
        (virt_foo_write enabled_idle 0x8 0x55 4).init % 2 = 1) ∧
      (virt_foo_write enabled_idle 0x8 0x55 4).irq = true ∧
      (step (virt_foo_write enabled_idle 0x8 0x55 4) (.read 0xC 4)).irq = false :=
  ⟨by decide, by decide,
    (irq_driven_by_two_triggers (virt_foo_write enabled_idle 0x8 0x55 4) (.read 0xC 4)).2
      (by decide)⟩

/-! ## Write path -/

/-- C7. Unknown-offset and read-only-register writes are no-ops: for every
state, every value and every offset other than `0x4` and `0x8`, a write
leaves the whole state unchanged, so every subsequent sequence of reads and
writes yields the same outputs and the same final state as if the write had
not been made. -/
theorem write_other_offset_noop (s : VirtFooState) (offset value size : Nat)
    (h4 : offset ≠ 0x4) (h8 : offset ≠ 0x8) :
    virt_foo_write s offset value size = s ∧
      ∀ ops : List Access,
        outputs (virt_foo_write s offset value size) ops = outputs s ops ∧
          run (virt_foo_write s offset value size) ops = run s ops := by
  have hw : virt_foo_write s offset value size = s := by
    simp [virt_foo_write, REG_INIT, REG_CMD, h4, h8]
  exact ⟨hw, fun ops => by rw [hw]; exact ⟨rfl, rfl⟩⟩

/-- Witness of C7: writes at offsets `0x10`, `0x0` and `0xC` leave the enabled
device with a pending command as it is, and a following sequence of reads
yields what it yields without the write. -/
theorem write_other_offset_noop_witness :
    virt_foo_write (virt_foo_write enabled_idle 0x8 0x55 4) 0x10 0xabcd 4 =
        virt_foo_write enabled_idle 0x8 0x55 4 ∧
      virt_foo_write (virt_foo_write enabled_idle 0x8 0x55 4) 0x0 0xabcd 4 =
        virt_foo_write enabled_idle 0x8 0x55 4 ∧
      virt_foo_write (virt_foo_write enabled_idle 0x8 0x55 4) 0xC 0xabcd 4 =
        virt_foo_write enabled_idle 0x8 0x55 4 ∧
      outputs (virt_foo_write (virt_foo_write enabled_idle 0x8 0x55 4) 0x10 0xabcd 4)
          [.read 0x0 4, .read 0x4 4, .read 0x8 4, .read 0xC 4, .read 0x10 4] =
        [(0xF001, []), (1, []), (0x55, []), (0b10, []), (0, [])] :=
  ⟨(write_other_offset_noop _ 0x10 0xabcd 4 (by decide) (by decide)).1,
    (write_other_offset_noop _ 0x0 0xabcd 4 (by decide) (by decide)).1,
    (write_other_offset_noop _ 0xC 0xabcd 4 (by decide) (by decide)).1,
    ((write_other_offset_noop _ 0x10 0xabcd 4 (by decide) (by decide)).2 _).1.trans
      (by decide)⟩

/-- C8. Writes are not gated by the enable bit: in every state with enable
bit 0 clear and for every 32-bit `X`, a write of `X` at offset `0x8` stores
`X` in the command buffer, sets the status to `0b10` and asserts the
interrupt; after a subsequent write of 1 at offset `0x4`, a read of offset
`0x8` returns `X` and a read of offset `0xC`, made directly or after that
read, returns `0b10`. -/
theorem write_not_gated (s : VirtFooState) (X size1 size2 size3 size4 : Nat)
    (hdis : s.init % 2 = 0) (hX : X < 2 ^ 32) :
    (virt_foo_write s 0x8 X size1).cmd = X ∧
      (virt_foo_write s 0x8 X size1).status = 0b10 ∧
      (virt_foo_write s 0x8 X size1).irq = true ∧
      (virt_foo_read (virt_foo_write (virt_foo_write s 0x8 X size1) 0x4 1 size2)
        0x8 size3).ret = X ∧
      (virt_foo_read (virt_foo_write (virt_foo_write s 0x8 X size1) 0x4 1 size2)
        0xC size4).ret = 0b10 ∧
      (virt_foo_read (virt_foo_read (virt_foo_write (virt_foo_write s 0x8 X size1)
        0x4 1 size2) 0x8 size3).state 0xC size4).ret = 0b10 := by
  have hm : X % 2 ^ 32 = X := Nat.mod_eq_of_lt hX
  refine ⟨?_, ?_, ?_, ?_, ?_, ?_⟩ <;>
    simp [virt_foo_read, virt_foo_write, qemu_set_irq, land_chip_en, REG_ID, REG_INIT,
      REG_CMD, REG_INT_STATUS, int_buffer_enq_eq, to_uint32_cast_int] <;>
    omega

/-- Witness of C8: the constructed device, still disabled, takes the command
`0x55`; once enabled it reads it back together with the status `0b10`. -/
theorem write_not_gated_witness :
    constructed.init % 2 = 0 ∧
      (virt_foo_write constructed 0x8 0x55 4).cmd = 0x55 ∧
      (virt_foo_write constructed 0x8 0x55 4).irq = true ∧
      (virt_foo_read (virt_foo_write (virt_foo_write constructed 0x8 0x55 4) 0x4 1 4)
        0x8 4).ret = 0x55 ∧
      (virt_foo_read (virt_foo_write (virt_foo_write constructed 0x8 0x55 4) 0x4 1 4)
        0xC 4).ret = 0b10 :=
  have h := write_not_gated constructed 0x55 4 4 4 4 (by decide) (by decide)
  ⟨by decide, h.1, h.2.2.1, h.2.2.2.1, h.2.2.2.2.1⟩

/-- C9. Last-write-wins on the single-slot command buffer: for every state and
all values `X` and `Y`, the state after a write of `X` and then a write of
`Y` at offset `0x8` is the state after the write of `Y` alone: the command
buffer holds `Y` (its low 32 bits, which is `Y` for a 32-bit `Y`), the
status is `0b10` and the interrupt is asserted. -/
theorem cmd_last_write_wins (s : VirtFooState) (X Y size1 size2 : Nat) :
    virt_foo_write (virt_foo_write s 0x8 X size1) 0x8 Y size2 = virt_foo_write s 0x8 Y size2 ∧
      (virt_foo_write (virt_foo_write s 0x8 X size1) 0x8 Y size2).cmd = Y % 2 ^ 32 ∧
      (Y < 2 ^ 32 → (virt_foo_write (virt_foo_write s 0x8 X size1) 0x8 Y size2).cmd = Y) ∧
      (virt_foo_write (virt_foo_write s 0x8 X size1) 0x8 Y size2).status = 0b10 ∧
      (virt_foo_write (virt_foo_write s 0x8 X size1) 0x8 Y size2).irq = true := by
  refine ⟨?_, ?_, fun hY => ?_, ?_, ?_⟩
  · simp [virt_foo_write, qemu_set_irq, REG_INIT, REG_CMD]
  · simp [virt_foo_write, qemu_set_irq, REG_INIT, REG_CMD, to_uint32_cast_int]
  · simpa [virt_foo_write, qemu_set_irq, REG_INIT, REG_CMD, to_uint32_cast_int] using hY
  · simp [virt_foo_write, qemu_set_irq, REG_INIT, REG_CMD, int_buffer_enq_eq]
  · simp [virt_foo_write, qemu_set_irq, REG_INIT, REG_CMD]

/-- Witness of C9: on the enabled device, `0x55` and then `0x99` leave the state
that `0x99` alone leaves, with `0x99` in the command buffer. -/
theorem cmd_last_write_wins_witness :
    virt_foo_write (virt_foo_write enabled_idle 0x8 0x55 4) 0x8 0x99 4 =
        virt_foo_write enabled_idle 0x8 0x99 4 ∧
      (virt_foo_write (virt_foo_write enabled_idle 0x8 0x55 4) 0x8 0x99 4).cmd = 0x99 :=
  ⟨(cmd_last_write_wins enabled_idle 0x55 0x99 4 4).1,
    (cmd_last_write_wins enabled_idle 0x55 0x99 4 4).2.2.1 (by decide)⟩

/-! ## Reachable states -/

/-- C10. Reachable-state invariant: let the instance `s0` handed to
`virt_foo_realize` have status 0 and the interrupt deasserted, as the
zero-filled instance has. In every state reached from the constructed device
by a sequence of reads and writes, the status register is 0 or `0b10`, its
bit 0 is clear, the pair of status and interrupt level is one of
(0, deasserted), (`0b10`, asserted), (`0b10`, deasserted), and the interrupt
is not asserted while the status is 0. -/
theorem reachable_status_irq_invariant (s0 : VirtFooState) (ops : List Access)
    (hstatus : s0.status = 0) (hirq : s0.irq = false) :
    ((run (virt_foo_realize s0) ops).status = 0 ∨
        (run (virt_foo_realize s0) ops).status = 0b10) ∧
      (run (virt_foo_realize s0) ops).status % 2 = 0 ∧
      (((run (virt_foo_realize s0) ops).status = 0 ∧
          (run (virt_foo_realize s0) ops).irq = false) ∨
        ((run (virt_foo_realize s0) ops).status = 0b10 ∧
          (run (virt_foo_realize s0) ops).irq = true) ∨
        ((run (virt_foo_realize s0) ops).status = 0b10 ∧
          (run (virt_foo_realize s0) ops).irq = false)) ∧
      ¬ ((run (virt_foo_realize s0) ops).irq = true ∧
        (run (virt_foo_realize s0) ops).status = 0) := by
  have hinv := run_preserves
    (fun t => (t.status = 0 ∧ t.irq = false) ∨ (t.status = 2 ∧ t.irq = true) ∨
      (t.status = 2 ∧ t.irq = false))
    step_status_irq (virt_foo_realize s0) ops (Or.inl ⟨hstatus, hirq⟩)
  simp only at hinv
  rcases hinv with ⟨h1, h2⟩ | ⟨h1, h2⟩ | ⟨h1, h2⟩ <;> simp [h1, h2]

/-- Witness of C10: the zero-filled instance meets the two conditions, and the
device built from it, after a command written while disabled, an enable, a
status read and a second command, is pending with the interrupt asserted. -/
theorem reachable_status_irq_invariant_witness :
    (instance_zeroed.status = 0 ∧ instance_zeroed.irq = false) ∧
      ((run (virt_foo_realize instance_zeroed)
          [.write 0x8 0x55 4, .write 0x4 1 4, .read 0xC 4, .write 0x8 0x99 4]).status = 0b10 ∧
        (run (virt_foo_realize instance_zeroed)
          [.write 0x8 0x55 4, .write 0x4 1 4, .read 0xC 4, .write 0x8 0x99 4]).irq = true) ∧
      ¬ ((run (virt_foo_realize instance_zeroed)
          [.write 0x8 0x55 4, .write 0x4 1 4, .read 0xC 4, .write 0x8 0x99 4]).irq = true ∧
        (run (virt_foo_realize instance_zeroed)
          [.write 0x8 0x55 4, .write 0x4 1 4, .read 0xC 4, .write 0x8 0x99 4]).status = 0) :=
  ⟨by decide, by decide,
    (reachable_status_irq_invariant instance_zeroed
      [.write 0x8 0x55 4, .write 0x4 1 4, .read 0xC 4, .write 0x8 0x99 4] rfl rfl).2.2.2⟩

/-! ## Construction -/

/-- C12. Sticky status: in a state whose status register equals `0b10`, after
every single access (a read or a write, at any offset, with any value, the
device enabled or not) the status register still equals `0b10`; hence no
sequence of accesses returns the status to 0. -/
theorem status_sticky (s : VirtFooState) (op : Access) (hst : s.status = 0b10) :
    (step s op).status = 0b10 ∧
      ∀ ops : List Access, (run s ops).status = 0b10 ∧ (run s ops).status ≠ 0 := by
  have hstep : ∀ (t : VirtFooState) (o : Access), t.status = 2 → (step t o).status = 2 := by
    intro t o ht
    cases o with
    | read offset size =>
      simp only [step, virt_foo_read, qemu_set_irq]
      split_ifs <;> exact ht
    | write offset value size =>
      simp only [step, virt_foo_write, qemu_set_irq, int_buffer_enq_eq]
      split_ifs
      · exact ht
      · rfl
      · exact ht
  refine ⟨hstep s op hst, fun ops => ?_⟩
  have hrun := run_preserves (fun t => t.status = 2) hstep s ops hst
  simp only at hrun
  exact ⟨hrun, by rw [hrun]; decide⟩

/-- Witness of C12: with a command pending, a status read, an enable write, a
disabled read and a write at an unknown offset each leave the status at
`0b10`. -/
theorem status_sticky_witness :
    disabled_pending.status = 0b10 ∧
      (step disabled_pending (.read 0xC 4)).status = 0b10 ∧
      (step (virt_foo_write enabled_idle 0x8 0x55 4) (.read 0xC 4)).status = 0b10 ∧
      (run disabled_pending
        [.write 0x4 1 4, .read 0xC 4, .read 0xC 4, .write 0x4 0 4, .write 0xC 0 4,
          .write 0x10 0 4]).status = 0b10 :=
  ⟨by decide,
    (status_sticky disabled_pending (.read 0xC 4) (by decide)).1,
    (status_sticky (virt_foo_write enabled_idle 0x8 0x55 4) (.read 0xC 4) (by decide)).1,
    ((status_sticky disabled_pending (.read 0xC 4) (by decide)).2 _).1⟩

/-- C13. Reads have no effect on the registers: for every state and every
offset, `virt_foo_read` leaves id, enable register, command buffer and
status unchanged; for every offset other than `0xC` the whole state, the
interrupt level included, is unchanged, so only a read of offset `0xC` can
change the interrupt level. -/
theorem read_frame (s : VirtFooState) (offset size : Nat) :
    (virt_foo_read s offset size).state.id = s.id ∧
      (virt_foo_read s offset size).state.init = s.init ∧
      (virt_foo_read s offset size).state.cmd = s.cmd ∧
      (virt_foo_read s offset size).state.status = s.status ∧
      (offset ≠ 0xC → (virt_foo_read s offset size).state = s) ∧
      ((virt_foo_read s offset size).state.irq ≠ s.irq → offset = 0xC) := by
  have hother : offset ≠ 0xC → (virt_foo_read s offset size).state = s := by
    intro hne
    simp only [virt_foo_read, REG_INT_STATUS]
    split_ifs <;> rfl
  refine ⟨?_, ?_, ?_, ?_, hother, fun hirq => ?_⟩
  · simp only [virt_foo_read, qemu_set_irq]
    split_ifs <;> rfl
  · simp only [virt_foo_read, qemu_set_irq]
    split_ifs <;> rfl
  · simp only [virt_foo_read, qemu_set_irq]
    split_ifs <;> rfl
  · simp only [virt_foo_read, qemu_set_irq]
    split_ifs <;> rfl
  · by_contra hne
    exact hirq (by rw [hother hne])

/-- Witness of C13: on the enabled device with a pending command, a read of the
command register leaves the whole state as it is, and a read of the status
register changes the interrupt level and nothing else. -/
theorem read_frame_witness :
    (virt_foo_read (virt_foo_write enabled_idle 0x8 0x55 4) 0x8 4).state =
        virt_foo_write enabled_idle 0x8 0x55 4 ∧
      (virt_foo_read (virt_foo_write enabled_idle 0x8 0x55 4) 0xC 4).state.status =
        (virt_foo_write enabled_idle 0x8 0x55 4).status ∧
      (virt_foo_read (virt_foo_write enabled_idle 0x8 0x55 4) 0xC 4).state.irq ≠
        (virt_foo_write enabled_idle 0x8 0x55 4).irq :=
  ⟨(read_frame (virt_foo_write enabled_idle 0x8 0x55 4) 0x8 4).2.2.2.2.1 (by decide),
    (read_frame (virt_foo_write enabled_idle 0x8 0x55 4) 0xC 4).2.2.2.1,
    by decide⟩

/-! ## Enable register and address decoding -/

/-- C14. Enable register echo and gate bit: for every state and every 32-bit
`V`, after a write of `V` at offset `0x4`, a read of offset `0x4` returns
`V` in full, reserved upper bits included, when bit 0 of `V` is set, and
returns 0 when bit 0 of `V` is clear; with bit 0 clear every offset reads 0,
whatever the upper bits of `V` are. -/
theorem init_write_then_read (s : VirtFooState) (V size1 size2 : Nat) (hV : V < 2 ^ 32) :
    (virt_foo_write s 0x4 V size1).init = V ∧
      (V % 2 = 1 → (virt_foo_read (virt_foo_write s 0x4 V size1) 0x4 size2).ret = V) ∧
      (V % 2 = 0 →
        ∀ offset, (virt_foo_read (virt_foo_write s 0x4 V size1) offset size2).ret = 0) := by
  have hm : V % 2 ^ 32 = V := Nat.mod_eq_of_lt hV
  have hinit : (virt_foo_write s 0x4 V size1).init = V := by
    simp only [virt_foo_write, REG_INIT, if_true, to_uint32_cast_int]
    exact hm
  refine ⟨hinit, fun h1 => ?_, fun h0 offset => ?_⟩
  · simp [virt_foo_read, land_chip_en, hinit, h1, REG_ID, REG_INIT]
  · simp [virt_foo_read, land_chip_en, hinit, h0]

/-- Witness of C14: `0xfffffff1` (bit 0 set, upper bits set) is read back in
full, and `0xfffffff0` (bit 0 clear, the same upper bits) reads 0. -/
theorem init_write_then_read_witness :
    ((0xfffffff1 : Nat) < 2 ^ 32 ∧ (0xfffffff1 : Nat) % 2 = 1) ∧
      (virt_foo_read (virt_foo_write constructed 0x4 0xfffffff1 4) 0x4 4).ret = 0xfffffff1 ∧
      ((0xfffffff0 : Nat) < 2 ^ 32 ∧ (0xfffffff0 : Nat) % 2 = 0) ∧
      (virt_foo_read (virt_foo_write constructed 0x4 0xfffffff0 4) 0x4 4).ret = 0 :=
  ⟨by decide,
    (init_write_then_read constructed 0xfffffff1 4 4 (by decide)).2.1 (by decide),
    by decide,
    (init_write_then_read constructed 0xfffffff0 4 4 (by decide)).2.2 (by decide) 0x4⟩

/-- C15. Address decoding is by exact offset: in every enabled state, for every
offset that is not exactly `0x0`, `0x4`, `0x8` or `0xC` (unaligned offsets
and every offset from `0x10` upward included), `virt_foo_read` returns 0 and
leaves the state as it is. -/
theorem read_unknown_offset (s : VirtFooState) (offset size : Nat)
    (hen : s.init % 2 = 1)
    (h0 : offset ≠ 0x0) (h4 : offset ≠ 0x4) (h8 : offset ≠ 0x8) (hc : offset ≠ 0xC) :
    (virt_foo_read s offset size).ret = 0 ∧ (virt_foo_read s offset size).state = s := by
  simp [virt_foo_read, land_chip_en, hen, REG_ID, REG_INIT, REG_CMD, REG_INT_STATUS,
    h0, h4, h8, hc]

/-- Witness of C15: on the enabled device with a pending command, the offsets
1, 2, 3, `0x10` and `0x1fc` read 0. -/
theorem read_unknown_offset_witness :
    (virt_foo_write enabled_idle 0x8 0x55 4).init % 2 = 1 ∧
      (virt_foo_read (virt_foo_write enabled_idle 0x8 0x55 4) 1 4).ret = 0 ∧
      (virt_foo_read (virt_foo_write enabled_idle 0x8 0x55 4) 2 4).ret = 0 ∧
      (virt_foo_read (virt_foo_write enabled_idle 0x8 0x55 4) 3 4).ret = 0 ∧
      (virt_foo_read (virt_foo_write enabled_idle 0x8 0x55 4) 0x10 4).ret = 0 ∧
      (virt_foo_read (virt_foo_write enabled_idle 0x8 0x55 4) 0x1fc 4).ret = 0 :=
  ⟨by decide,
    (read_unknown_offset _ 1 4 (by decide) (by decide) (by decide) (by decide)
      (by decide)).1,
    (read_unknown_offset _ 2 4 (by decide) (by decide) (by decide) (by decide)
      (by decide)).1,
    (read_unknown_offset _ 3 4 (by decide) (by decide) (by decide) (by decide)
      (by decide)).1,
    (read_unknown_offset _ 0x10 4 (by decide) (by decide) (by decide) (by decide)
      (by decide)).1,
    (read_unknown_offset _ 0x1fc 4 (by decide) (by decide) (by decide) (by decide)
      (by decide)).1⟩

/-! ## Access width -/

theorem write_wf (s : VirtFooState) (offset value size : Nat) (hwf : s.wf) :
    (virt_foo_write s offset value size).wf := by
  obtain ⟨h1, h2, h3, h4⟩ := hwf
  have hm : value % 2 ^ 32 < 2 ^ 32 := Nat.mod_lt _ (by decide)
  simp only [virt_foo_write, qemu_set_irq, to_uint32_cast_int, int_buffer_enq_eq]
  split_ifs
  · exact ⟨h1, hm, h3, h4⟩
  · exact ⟨h1, h2, hm, by show 2 % 2 ^ 32 < 2 ^ 32; decide⟩
  · exact ⟨h1, h2, h3, h4⟩

theorem read_state_wf (s : VirtFooState) (offset size : Nat) (hwf : s.wf) :
    (virt_foo_read s offset size).state.wf := by
  simp only [virt_foo_read, qemu_set_irq]
  split_ifs <;> exact hwf

theorem step_wf (s : VirtFooState) (op : Access) (hwf : s.wf) : (step s op).wf := by
  cases op with
  | read offset size => exact read_state_wf s offset size hwf
  | write offset value size => exact write_wf s offset value size hwf

/-- C16. Every access is a full 32-bit transfer: for every access size and
every bus value `v`, a write at offset `0x4` or `0x8` stores `v mod 2 ^ 32`
in the register, and neither callback depends on the size argument; in a
state whose registers hold 32-bit values, as they do after every sequence of
accesses, every value returned by `virt_foo_read` is below `2 ^ 32`. -/
theorem full_width_transfer (s : VirtFooState) (v offset size size2 : Nat) :
    (virt_foo_write s 0x4 v size).init = v % 2 ^ 32 ∧
      (virt_foo_write s 0x8 v size).cmd = v % 2 ^ 32 ∧
      virt_foo_write s offset v size = virt_foo_write s offset v size2 ∧
      virt_foo_read s offset size = virt_foo_read s offset size2 ∧
      (s.wf → (virt_foo_read s offset size).ret < 2 ^ 32) ∧
      (s.wf → ∀ ops : List Access, (run s ops).wf) := by
  refine ⟨?_, ?_, rfl, rfl, fun hwf => ?_, fun hwf ops => ?_⟩
  · simp [virt_foo_write, REG_INIT, to_uint32_cast_int]
  · simp [virt_foo_write, qemu_set_irq, REG_INIT, REG_CMD, to_uint32_cast_int]
  · obtain ⟨h1, h2, h3, h4⟩ := hwf
    simp only [virt_foo_read, qemu_set_irq]
    split_ifs
    · show 0 < 2 ^ 32; decide
    · exact h1
    · exact h2
    · exact h3
    · exact h4
    · show 0 < 2 ^ 32; decide
  · exact run_preserves VirtFooState.wf step_wf s ops hwf

/-- Witness of C16: a 1-byte write of `0x1000000ff` at offset `0x4` stores
`0xff`, an 8-byte write of `0xffffffff` at offset `0x8` stores `0xffffffff`,
and the 1-byte read of offset `0x8` that follows returns `0xffffffff`, which
is below `2 ^ 32`. -/
theorem full_width_transfer_witness :
    (virt_foo_write constructed 0x4 0x1000000ff 1).wf ∧
      (virt_foo_write constructed 0x4 0x1000000ff 1).init = 0xff ∧
      (virt_foo_write (virt_foo_write constructed 0x4 0x1000000ff 1) 0x8 0xffffffff 8).cmd =
        0xffffffff ∧
      (virt_foo_read
        (virt_foo_write (virt_foo_write constructed 0x4 0x1000000ff 1) 0x8 0xffffffff 8)
        0x8 1).ret = 0xffffffff ∧
      (virt_foo_read
        (virt_foo_write (virt_foo_write constructed 0x4 0x1000000ff 1) 0x8 0xffffffff 8)
        0x8 1).ret < 2 ^ 32 :=
  ⟨by decide,
    (full_width_transfer constructed 0x1000000ff 0x4 1 1).1.trans (by decide),
    (full_width_transfer (virt_foo_write constructed 0x4 0x1000000ff 1) 0xffffffff 0x8 8
      8).2.1.trans (by decide),
    by decide,
    (full_width_transfer
      (virt_foo_write (virt_foo_write constructed 0x4 0x1000000ff 1) 0x8 0xffffffff 8)
      0 0x8 1 1).2.2.2.2.1 (by decide)⟩

/-- C17. Write frame: for every state and value, a write at offset `0x4` changes
only the enable register (id, command buffer, status and interrupt level are
unchanged), and a write at offset `0x8` leaves id and the enable register
unchanged. Disabling and re-enabling the device hides the command and the
status and does not erase them: while disabled offsets `0x8` and `0xC` read
0, and once re-enabled they read the command and status held before. -/
theorem write_frame (s : VirtFooState) (V X size : Nat) :
    virt_foo_write s 0x4 V size = { s with init := V % 2 ^ 32 } ∧
      ((virt_foo_write s 0x4 V size).id = s.id ∧
        (virt_foo_write s 0x4 V size).cmd = s.cmd ∧
        (virt_foo_write s 0x4 V size).status = s.status ∧
        (virt_foo_write s 0x4 V size).irq = s.irq) ∧
      ((virt_foo_write s 0x8 X size).id = s.id ∧
        (virt_foo_write s 0x8 X size).init = s.init) ∧
      ((virt_foo_read (virt_foo_write s 0x4 0 size) 0x8 size).ret = 0 ∧
        (virt_foo_read (virt_foo_write s 0x4 0 size) 0xC size).ret = 0 ∧
        (virt_foo_read (virt_foo_write (virt_foo_write s 0x4 0 size) 0x4 1 size)
          0x8 size).ret = s.cmd ∧
        (virt_foo_read (virt_foo_write (virt_foo_write s 0x4 0 size) 0x4 1 size)
          0xC size).ret = s.status) := by
  have hw : virt_foo_write s 0x4 V size = { s with init := V % 2 ^ 32 } := by
    simp [virt_foo_write, REG_INIT, to_uint32_cast_int]
  refine ⟨hw, ⟨?_, ?_, ?_, ?_⟩, ⟨?_, ?_⟩, ⟨?_, ?_, ?_, ?_⟩⟩
  · rw [hw]
  · rw [hw]
  · rw [hw]
  · rw [hw]
  · simp [virt_foo_write, qemu_set_irq, REG_INIT, REG_CMD]
  · simp [virt_foo_write, qemu_set_irq, REG_INIT, REG_CMD]
  · simp [virt_foo_read, virt_foo_write, land_chip_en, REG_INIT, to_uint32_cast_int]
  · simp [virt_foo_read, virt_foo_write, land_chip_en, REG_INIT, to_uint32_cast_int]
  · simp [virt_foo_read, virt_foo_write, land_chip_en, REG_ID, REG_INIT, REG_CMD,
      to_uint32_cast_int]
  · simp [virt_foo_read, virt_foo_write, qemu_set_irq, land_chip_en, REG_ID, REG_INIT,
      REG_CMD, REG_INT_STATUS, to_uint32_cast_int]

/-- Instance of C17 on the enabled device with the command `0x55` pending:
disabled, offset `0x8` reads 0; re-enabled, it reads `0x55` and offset `0xC`
reads `0b10`. -/
theorem write_frame_witness :
    (virt_foo_read (virt_foo_write (virt_foo_write enabled_idle 0x8 0x55 4) 0x4 0 4)
        0x8 4).ret = 0 ∧
      (virt_foo_read (virt_foo_write (virt_foo_write
        (virt_foo_write enabled_idle 0x8 0x55 4) 0x4 0 4) 0x4 1 4) 0x8 4).ret = 0x55 ∧
      (virt_foo_read (virt_foo_write (virt_foo_write
        (virt_foo_write enabled_idle 0x8 0x55 4) 0x4 0 4) 0x4 1 4) 0xC 4).ret = 0b10 :=
  have h := (write_frame (virt_foo_write enabled_idle 0x8 0x55 4) 0 0 4).2.2.2
  ⟨h.1, h.2.2.1.trans (by decide), h.2.2.2.trans (by decide)⟩

end VirtFoo
